import Mathlib

/-!
Verification development for an agent runtime consisting of a capability
registry (`SkillLoader` in `skill_loader.py`), an invocation protocol
(`execute_tool`) and an orchestration loop (`DrKGCAgent.run` in `main.py`).
The Python source is shallowly embedded: pure string processing is
translated directly; the standard-library collaborators (`subprocess.run`,
`datetime.now`, `json.loads`, the reasoning-backend HTTP call and the file
system) are modelled as explicit oracles passed to the embedded functions.
-/

/-- Python whitespace for `str.strip` / `str.split` / the regex class of
whitespace characters (ASCII range: space, tab, newline, return,
vertical tab, form feed). -/
def isPySpace (c : Char) : Bool :=
  c = ' ' || c = '\t' || c = '\n' || c = '\r' || c = Char.ofNat 11 || c = Char.ofNat 12

/-- A word character in the sense of the regex word class (ASCII reading:
letters, digits, underscore). -/
def isWordChar (c : Char) : Bool :=
  c.isAlphanum || c = '_'

/-- A single or double quote, the characters removed by the
`strip` call with a quote-set argument in `execute_tool`. -/
def isQuoteChar (c : Char) : Bool :=
  c = Char.ofNat 39 || c = Char.ofNat 34

/-- Removing leading and trailing characters satisfying `p` from a char list. -/
def stripWhile (p : Char → Bool) (cs : List Char) : List Char :=
  ((cs.dropWhile p).reverse.dropWhile p).reverse

/-- Python `str.strip()` (no arguments): drop whitespace at both ends. -/
def pyStrip (s : String) : String :=
  String.mk (stripWhile isPySpace s.data)

/-- Python `str.strip("'"")` as used on a candidate placeholder token:
drop quote characters at both ends. -/
def stripQuotes (s : String) : String :=
  String.mk (stripWhile isQuoteChar s.data)

/-- Accumulating word splitter: `acc` holds the characters of the
current word in reverse. -/
def pyWords (acc : List Char) : List Char → List String
  | [] => if acc.isEmpty then [] else [String.mk acc.reverse]
  | c :: t =>
    if isPySpace c then
      if acc.isEmpty then pyWords [] t
      else String.mk acc.reverse :: pyWords [] t
    else pyWords (c :: acc) t

/-- Python `str.split()` with no arguments: split on whitespace runs,
discarding empty pieces. Used on the command template. -/
def pySplit (s : String) : List String :=
  pyWords [] s.data

/-- Python `str.lower()` (ASCII reading), used on parameter type hints. -/
def pyLower (s : String) : String :=
  String.mk (s.data.map Char.toLower)

/-- Python `str.startswith`. -/
def strStartsWith (s pre : String) : Bool :=
  pre.data.isPrefixOf s.data

/-- Python `needle in hay` substring test on char lists. -/
def listContainsSub (hay needle : List Char) : Bool :=
  if needle.isPrefixOf hay then true
  else
    match hay with
    | [] => false
    | _ :: t => listContainsSub t needle

/-- Python `needle in hay` substring test on strings. -/
def strContainsSub (hay needle : String) : Bool :=
  listContainsSub hay.data needle.data

/-- Length of the maximal run of whitespace characters at the head. -/
def wsRun (cs : List Char) : Nat :=
  (cs.takeWhile isPySpace).length

/-! ### The Description section search

`_parse_skill` looks for the pattern: the literal `## Description`,
one or more whitespace characters (greedy), a lazy capture of arbitrary
characters (dot matches newline), one or more whitespace characters, and
the literal `##`.  The functions below reproduce the backtracking
search: leftmost starting position, longest leading whitespace run
first, shortest capture first. -/

/-- Whether `xs` begins with a whitespace run of length at least one
followed by the literal `##`.  Because a hash is not whitespace, the
engine's backtracking over the run length is forced to its maximum. -/
def wsThenHashes (xs : List Char) : Bool :=
  let w := wsRun xs
  decide (1 ≤ w) && ['#', '#'].isPrefixOf (xs.drop w)

/-- Lazy capture: the least `j` such that the tail of `xs` after `j`
characters begins with whitespace followed by `##`. -/
def findCapJ : List Char → Option Nat
  | [] => none
  | x :: t =>
    if wsThenHashes (x :: t) then some 0
    else (findCapJ t).map (fun j => j + 1)

/-- Greedy leading whitespace: try run length `w`, `w - 1`, ..., `1`;
for each, take the shortest capture that closes with whitespace and
`##`.  Returns the captured characters. -/
def tryDescTail (cs : List Char) : Nat → Option (List Char)
  | 0 => none
  | w + 1 =>
    let rest := cs.drop (w + 1)
    match findCapJ rest with
    | some j => some (rest.take j)
    | none => tryDescTail cs w

/-- The literal that opens a Description section. -/
def litDesc : List Char := "## Description".data

/-- Leftmost search for the Description pattern; returns the capture. -/
def searchDescAux : List Char → Option (List Char)
  | [] => none
  | c :: t =>
    if litDesc.isPrefixOf (c :: t) then
      let after := (c :: t).drop litDesc.length
      match tryDescTail after (wsRun after) with
      | some cap => some cap
      | none => searchDescAux t
    else searchDescAux t

/-! ### The Command section search

`_parse_skill` looks for: the literal `## Command`, one or more
whitespace characters, an optional backtick, a lazy capture that cannot
cross a newline, an optional backtick, then a newline or the end of the
input.  Once the literal and the whitespace match, this pattern always
succeeds, and the greedy whitespace run is forced to its maximum. -/

/-- Whether the lazy capture may close at this point: an optional
backtick followed by a newline or the end. -/
def cmdEndsHere : List Char → Bool
  | [] => true
  | '\n' :: _ => true
  | '`' :: [] => true
  | '`' :: '\n' :: _ => true
  | _ => false

/-- The lazy capture body: shortest prefix after which the pattern can
close. -/
def cmdLazyScan : List Char → List Char
  | [] => []
  | x :: t => if cmdEndsHere (x :: t) then [] else x :: cmdLazyScan t

/-- Optional opening backtick, then the lazy capture. -/
def cmdCapture (rest : List Char) : List Char :=
  match rest with
  | '`' :: rest2 => cmdLazyScan rest2
  | _ => cmdLazyScan rest

/-- The literal that opens a Command section. -/
def litCmd : List Char := "## Command".data

/-- Leftmost search for the Command pattern; returns the capture. -/
def searchCmdAux : List Char → Option (List Char)
  | [] => none
  | c :: t =>
    if litCmd.isPrefixOf (c :: t) then
      let after := (c :: t).drop litCmd.length
      let w := wsRun after
      if 1 ≤ w then some (cmdCapture (after.drop w))
      else searchCmdAux t
    else searchCmdAux t

/-! ### The parameter bullet search

`_parse_skill` collects every occurrence of: a dash, whitespace, a word
(the parameter name), whitespace, an opening parenthesis, a lazy capture
that cannot cross a newline (the type hint), the literal `):`,
whitespace, and a greedy capture to the end of the line (the
description).  All quantifiers except the two captures are forced, the
first capture is the shortest that is followed by `):` and at least one
whitespace character, and the matches are collected left to right
without overlap. -/

/-- Whether the type-hint capture may close here: the literal `):`
followed by at least one whitespace character. -/
def metaEndHere : List Char → Bool
  | ')' :: ':' :: r => decide (1 ≤ wsRun r)
  | _ => false

/-- Least capture length for the type hint; the capture cannot contain a
newline. -/
def findMetaJ : List Char → Option Nat
  | [] => none
  | c :: t =>
    if metaEndHere (c :: t) then some 0
    else if c = '\n' then none
    else (findMetaJ t).map (fun j => j + 1)

/-- Attempt a parameter-bullet match at this position.  Returns the
three captured groups (name, type hint, description) and the number of
characters consumed by the whole match. -/
def tryParamAt (cs : List Char) : Option ((String × String × String) × Nat) :=
  match cs with
  | '-' :: r1 =>
    let w1 := wsRun r1
    if w1 = 0 then none
    else
      let r2 := r1.drop w1
      let nm := r2.takeWhile isWordChar
      if nm.isEmpty then none
      else
        let r3 := r2.drop nm.length
        let w2 := wsRun r3
        if w2 = 0 then none
        else
          match r3.drop w2 with
          | '(' :: r4 =>
            match findMetaJ r4 with
            | none => none
            | some j =>
              let meta := r4.take j
              let r5 := r4.drop (j + 2)
              let w3 := wsRun r5
              let desc := (r5.drop w3).takeWhile (fun c => c ≠ '\n')
              some ((String.mk nm, String.mk meta, String.mk desc),
                1 + w1 + nm.length + w2 + 1 + j + 2 + w3 + desc.length)
          | _ => none
  | _ => none

/-- All parameter-bullet matches, left to right, non-overlapping.  Every
match consumes at least one character, so recursion is structural on a
fuel initialised to the input length. -/
def findParamsAux (fuel : Nat) (cs : List Char) : List (String × String × String) :=
  match fuel, cs with
  | 0, _ => []
  | _, [] => []
  | f + 1, c :: t =>
    match tryParamAt (c :: t) with
    | some (triple, consumed) => triple :: findParamsAux f (t.drop (consumed - 1))
    | none => findParamsAux f t

/-- All parameter-bullet matches of the whole input. -/
def findParams (cs : List Char) : List (String × String × String) :=
  findParamsAux cs.length cs

/-! ### Python dictionaries

Association lists with the update and lookup semantics of a Python
dict: assignment overwrites in place, lookup returns the last value
written for the key. -/

/-- `d[k] = v`: overwrite in place if present, else append. -/
def dictInsert {α : Type} (m : List (String × α)) (k : String) (v : α) :
    List (String × α) :=
  if m.any (fun p => p.1 = k) then
    m.map (fun p => if p.1 = k then (k, v) else p)
  else m ++ [(k, v)]

/-- `d.get(k)` as an option; the last binding for `k` wins. -/
def dictFind {α : Type} : List (String × α) → String → Option α
  | [], _ => none
  | p :: rest, k =>
    match dictFind rest k with
    | some v => some v
    | none => if p.1 = k then some p.2 else none

/-- `d.get(k, default)`. -/
def dictGet {α : Type} (m : List (String × α)) (k : String) (d : α) : α :=
  (dictFind m k).getD d

/-! ### The capability registry (`SkillLoader.load_all` / `_parse_skill`) -/

/-- One parameter of a capability schema: its JSON-schema type (scalar
string or array-of-strings) and its free-text description. -/
structure ParamSpec where
  ptype : String
  pdescription : String
  deriving DecidableEq, Repr

/-- The fields `_parse_skill` extracts from one descriptor file. -/
structure SkillDef where
  description : String
  command_template : String
  properties : List (String × ParamSpec)
  required : List String
  deriving DecidableEq, Repr

/-- Folding the parameter bullets into the JSON-schema property map and
the required-name list, in bullet order. -/
def foldParams (triples : List (String × String × String)) :
    List (String × ParamSpec) × List String :=
  triples.foldl
    (fun acc triple =>
      let pName := triple.1
      let pMeta := triple.2.1
      let pDesc := triple.2.2
      let lower := pyLower pMeta
      let pType :=
        if strContainsSub lower "array" || strContainsSub lower "list" then "array"
        else "string"
      let props := dictInsert acc.1 pName { ptype := pType, pdescription := pyStrip pDesc }
      let req := if strContainsSub lower "required" then acc.2 ++ [pName] else acc.2
      (props, req))
    ([], [])

/-- `SkillLoader._parse_skill` on the text of one descriptor file: the
Description capture (default `"No description"`), the Command capture
(default the empty template), and the parameter bullets. -/
def parse_skill (content : String) : SkillDef :=
  let description :=
    match searchDescAux content.data with
    | some cap => pyStrip (String.mk cap)
    | none => "No description"
  let command_template :=
    match searchCmdAux content.data with
    | some cap => pyStrip (String.mk cap)
    | none => ""
  let pr := foldParams (findParams content.data)
  { description := description, command_template := command_template,
    properties := pr.1, required := pr.2 }

/-- The OpenAI-format tool definition appended to `tools_schema`. -/
structure ToolDef where
  name : String
  description : String
  properties : List (String × ParamSpec)
  required : List String
  deriving DecidableEq, Repr

/-- The per-capability entry of `tool_configs`. -/
structure ToolConfig where
  command_template : String
  cwd : String
  deriving DecidableEq, Repr

/-- The mutable state of a `SkillLoader` instance. -/
structure LoaderState where
  tools_schema : List ToolDef
  tool_configs : List (String × ToolConfig)
  sessionId : Option String
  deriving DecidableEq, Repr

/-- The empty loader, as built by `SkillLoader.__init__`. -/
def initLoader : LoaderState :=
  { tools_schema := [], tool_configs := [], sessionId := none }

/-- One entry of the scanned skills directory: either a subdirectory
holding a `SKILL.md` whose read yields text or raises, or anything
else (a plain file, or a directory without a descriptor). -/
inductive FsEntry where
  | skillDir (name : String) (descriptor : Except String String)
  | plainEntry (name : String)
  deriving Repr

/-- The body of `_parse_skill` past the file read: parse the text and
append the tool definition and configuration for this folder. -/
def registerSkill (skills_dir : String) (st : LoaderState)
    (folder_name : String) (content : String) : LoaderState :=
  let sd := parse_skill content
  { st with
    tools_schema := st.tools_schema ++
      [{ name := folder_name, description := sd.description,
         properties := sd.properties, required := sd.required }],
    tool_configs := dictInsert st.tool_configs folder_name
      { command_template := sd.command_template,
        cwd := skills_dir ++ "/" ++ folder_name } }

/-- One iteration of the `load_all` scan: a subdirectory with a
readable descriptor is registered; a descriptor whose processing raises
is logged and skipped; anything else is ignored. -/
def loadStep (skills_dir : String) (acc : LoaderState) (e : FsEntry) :
    LoaderState :=
  match e with
  | .skillDir nm (.ok content) => registerSkill skills_dir acc nm content
  | .skillDir _ (.error _) => acc
  | .plainEntry _ => acc

/-- `SkillLoader.load_all`: if the skills directory is missing, do
nothing; otherwise fold over the directory listing, registering each
subdirectory that holds a descriptor file and skipping (with a log
line) any whose processing raises. -/
def load_all (skills_dir : String) (dirExists : Bool) (entries : List FsEntry)
    (st : LoaderState) : LoaderState :=
  if dirExists then entries.foldl (loadStep skills_dir) st
  else st

/-- `SkillLoader.set_session_id`: keep a truthy explicit identifier,
otherwise derive one from the current timestamp (`now`). -/
def set_session_id (now : String) (st : LoaderState) (sid : Option String) :
    String × LoaderState :=
  match sid with
  | some s =>
    if s = "" then (now, { st with sessionId := some now })
    else (s, { st with sessionId := some s })
  | none => (now, { st with sessionId := some now })

/-! ### Argument values and their serialization

`execute_tool` turns each supplied argument value into one text token:
containers (lists and dicts) through `json.dumps` with `ensure_ascii`
off, scalars through `str`. -/

/-- A JSON value as decoded by the standard library from a tool-call
argument object. -/
inductive PyVal where
  | vstr (s : String)
  | vint (n : Int)
  | vbool (b : Bool)
  | vnone
  | vlist (xs : List PyVal)
  | vdict (fs : List (String × PyVal))

/-- Four-digit lowercase hexadecimal, for escaped control characters. -/
def hex4 (n : Nat) : String :=
  let d := fun (k : Nat) =>
    if k < 10 then Char.ofNat (48 + k) else Char.ofNat (87 + k)
  String.mk [d (n / 4096 % 16), d (n / 256 % 16), d (n / 16 % 16), d (n % 16)]

/-- JSON string escaping with `ensure_ascii` off: only the quote, the
backslash and control characters are escaped. -/
def jsonEscChar (c : Char) : String :=
  if c = Char.ofNat 34 then String.mk [Char.ofNat 92, Char.ofNat 34]
  else if c = Char.ofNat 92 then String.mk [Char.ofNat 92, Char.ofNat 92]
  else if c = '\n' then "\\n"
  else if c = '\r' then "\\r"
  else if c = '\t' then "\\t"
  else if c = Char.ofNat 8 then "\\b"
  else if c = Char.ofNat 12 then "\\f"
  else if c.toNat < 32 then "\\u" ++ hex4 c.toNat
  else String.singleton c

/-- A JSON string literal. -/
def jsonStrLit (s : String) : String :=
  String.mk [Char.ofNat 34] ++ String.join (s.data.map jsonEscChar)
    ++ String.mk [Char.ofNat 34]

/-- `json.dumps(v, ensure_ascii=False)` with the default separators. -/
def jsonDumps : PyVal → String
  | .vstr s => jsonStrLit s
  | .vint n => toString n
  | .vbool b => if b then "true" else "false"
  | .vnone => "null"
  | .vlist xs =>
    "[" ++ String.intercalate ", " (xs.attach.map (fun x => jsonDumps x.1)) ++ "]"
  | .vdict fs =>
    "\x7b" ++ String.intercalate ", "
      (fs.attach.map (fun f => jsonStrLit f.1.1 ++ ": " ++ jsonDumps f.1.2))
      ++ "\x7d"
decreasing_by
  · have := List.sizeOf_lt_of_mem x.2
    simp only [PyVal.vlist.sizeOf_spec]
    omega
  · have h1 := List.sizeOf_lt_of_mem f.2
    have h2 : sizeOf f.1.2 < sizeOf f.1 := by
      obtain ⟨a, b⟩ := f.1
      simp only [Prod.mk.sizeOf_spec]
      omega
    simp only [PyVal.vdict.sizeOf_spec]
    omega

/-- The single text token placed in the argument vector for one supplied
value: `json.dumps` for a list or dict, `str` otherwise. -/
def serializeArg : PyVal → String
  | .vlist xs => jsonDumps (.vlist xs)
  | .vdict fs => jsonDumps (.vdict fs)
  | .vstr s => s
  | .vint n => toString n
  | .vbool b => if b then "True" else "False"
  | .vnone => "None"

/-! ### Placeholder binding (`execute_tool`, the template scan) -/

/-- The anchored placeholder match: an opening brace, one or more word
characters (greedy, hence maximal), a closing brace; trailing text is
ignored.  Returns the captured name. -/
def placeholderName (s : String) : Option String :=
  match s.data with
  | '{' :: rest =>
    let ws := rest.takeWhile isWordChar
    if ws.isEmpty then none
    else
      match rest.drop ws.length with
      | '}' :: _ => some (String.mk ws)
      | _ => none
  | _ => none

/-- The parameter-to-flag scan of `execute_tool` over the template
tokens past the script path: a token starting with a double dash is a
flag and consumes the following token; when the consumed token (with
surrounding quotes stripped) is a placeholder, its name is bound to the
flag; any other token is skipped. -/
def buildMapping : List String → List (String × String)
  | [] => []
  | t :: rest =>
    if strStartsWith t "--" then
      match rest with
      | [] => []
      | p :: rest2 =>
        match placeholderName (stripQuotes p) with
        | some nm => (nm, t) :: buildMapping rest2
        | none => buildMapping rest2
    else buildMapping rest

/-! ### Process invocation (`execute_tool`) -/

/-- Host facts read by the loader module: the running interpreter
(`sys.executable`) and the directory holding the module file, which is
passed as the child working directory. -/
structure AgentCfg where
  sysExecutable : String
  moduleDir : String
  deriving DecidableEq, Repr

/-- One process-creation request handed to `subprocess.run`: the
argument vector, the session identifier placed in the child
environment, and the child working directory. -/
structure SpawnReq where
  cmd : List String
  envSession : String
  cwd : String
  deriving DecidableEq, Repr

/-- What the spawn does: either captured standard output and standard
error, or a process-creation exception with its text. -/
inductive SpawnOutcome where
  | ok (stdout : String) (stderr : String)
  | exn (msg : String)
  deriving DecidableEq, Repr

/-- The value `execute_tool` returns: either the payload text passed
through from the tool, or the structured error envelope
`json.dumps` of status `error` with a message and an optional debug
field. -/
inductive ExecResult where
  | out (payload : String)
  | err (message : String) (debug : Option String)
  deriving DecidableEq, Repr

/-- The output-handling block of `execute_tool` after `subprocess.run`
returns or raises: branch on the stripped standard output, then on
standard error. -/
def handleOutcome : SpawnOutcome → ExecResult
  | .exn m => .err ("执行异常: " ++ m) none
  | .ok so se =>
    let output := pyStrip so
    if output = "" ∧ se ≠ "" then .err "无输出" (some se)
    else if output = "" then .err "脚本输出为空" none
    else .out output

/-- The session identifier `execute_tool` injects: the held identifier
when it is truthy, otherwise a fresh timestamp-derived one (the Python
`if not self.session_id` check treats both an unset and an empty
identifier as absent). -/
def sidOf (st : LoaderState) (now : String) : String :=
  match st.sessionId with
  | some s => if s = "" then now else s
  | none => now

/-- `SkillLoader.execute_tool`.  `spawn` is the `subprocess.run`
oracle, `now` the `datetime.now` timestamp string.  Returns the result,
the updated loader state and the list of process creations performed
(empty or a single request). -/
def execute_tool (cfg : AgentCfg) (spawn : SpawnReq → SpawnOutcome) (now : String)
    (st : LoaderState) (name : String) (args : List (String × PyVal)) :
    ExecResult × LoaderState × List SpawnReq :=
  match dictFind st.tool_configs name with
  | none => (.err ("工具 " ++ name ++ " 未找到") none, st, [])
  | some config =>
    let template := config.command_template
    let _cwd := config.cwd
    let args_list := args.map (fun p => (p.1, serializeArg p.2))
    match pySplit template with
    | _t0 :: script_path :: restTokens =>
      let arg_mapping := buildMapping restTokens
      let pairs := args_list.map
        (fun p => (dictGet arg_mapping p.1 ("--" ++ p.1), p.2))
      let cmd_list := cfg.sysExecutable :: script_path ::
        pairs.foldr (fun p acc => p.1 :: p.2 :: acc) []
      let sid := sidOf st now
      let st2 := { st with sessionId := some sid }
      let req : SpawnReq :=
        { cmd := cmd_list, envSession := sid, cwd := cfg.moduleDir }
      (handleOutcome (spawn req), st2, [req])
    | _ => (.err "无效的命令模板" none, st, [])

/-! ### The orchestration loop (`DrKGCAgent.run`) -/

/-- One tool-call request in a backend reply: correlation id, capability
name and the JSON-encoded argument text. -/
structure ToolCall where
  id : String
  name : String
  arguments : String
  deriving DecidableEq, Repr

/-- One backend reply message: optional free-text content and the
ordered tool-call list (absent or empty both behave as no calls). -/
structure Reply where
  content : Option String
  toolCalls : List ToolCall
  deriving DecidableEq, Repr

/-- A message of the conversation transcript. -/
inductive Msg where
  | system (content : String)
  | user (content : String)
  | assistant (content : Option String) (toolCalls : List ToolCall)
  | tool (tool_call_id : String) (name : String) (content : ExecResult)
  deriving DecidableEq, Repr

/-- The correlation id carried by a tool-result message. -/
def msgCallId : Msg → Option String
  | .tool i _ _ => some i
  | _ => none

/-- The external collaborators of one orchestration run: host facts, the
`subprocess.run` oracle, the `datetime.now` oracle (indexed by how many
timestamps were drawn so far), the reasoning-backend call
(`call_deepseek`, `none` modelling a falsy response) and the
`json.loads` oracle for argument payloads. -/
structure ExecEnv where
  cfg : AgentCfg
  spawn : SpawnReq → SpawnOutcome
  timeAt : Nat → String
  backend : List Msg → Option Reply
  parseJson : String → Except String (List (String × PyVal))

/-- The tool-dispatch block of `run`: each call's argument payload is
decoded on its own; a decode failure appends the structured error
envelope for that call only, a success appends the `execute_tool`
result.  Returns the tool-result messages in request order together
with the threaded loader state and timestamp index. -/
def processCalls (env : ExecEnv) :
    LoaderState → Nat → List ToolCall → List Msg × LoaderState × Nat
  | st, tick, [] => ([], st, tick)
  | st, tick, tc :: rest =>
    match env.parseJson tc.arguments with
    | .ok args =>
      let e := execute_tool env.cfg env.spawn (env.timeAt tick) st tc.name args
      let p := processCalls env e.2.1 (tick + 1) rest
      (.tool tc.id tc.name e.1 :: p.1, p.2.1, p.2.2)
    | .error emsg =>
      let p := processCalls env st tick rest
      (.tool tc.id tc.name (.err emsg none) :: p.1, p.2.1, p.2.2)

/-- The state threaded through one orchestration run. -/
structure RunState where
  messages : List Msg
  loader : LoaderState
  tick : Nat
  finalResponse : String
  stepCount : Nat
  deriving Repr

/-- `step_count += 1` at the top of the loop body. -/
def bumpStep (st : RunState) : RunState :=
  { st with stepCount := st.stepCount + 1 }

/-- `if content: final_response = content` — only truthy content is
kept as the best available answer. -/
def noteContent (st : RunState) (c : Option String) : RunState :=
  match c with
  | some s => if s = "" then st else { st with finalResponse := s }
  | none => st

/-- Appending messages to the transcript. -/
def appendMsgs (st : RunState) (ms : List Msg) : RunState :=
  { st with messages := st.messages ++ ms }

/-- The `while step_count < max_steps` loop of `DrKGCAgent.run`,
structurally recursive on the remaining step budget.  Each iteration
queries the backend; a falsy response breaks; the reply is recorded
unconditionally; a reply with tool calls dispatches them and loops, one
without ends the run. -/
def runLoop (env : ExecEnv) : Nat → RunState → RunState
  | 0, st => st
  | fuel + 1, st =>
    let st1 := bumpStep st
    match env.backend st1.messages with
    | none => st1
    | some r =>
      let st2 := appendMsgs (noteContent st1 r.content)
        [Msg.assistant r.content r.toolCalls]
      if r.toolCalls.isEmpty then st2
      else
        let p := processCalls env st2.loader st2.tick r.toolCalls
        runLoop env fuel { appendMsgs st2 p.1 with loader := p.2.1, tick := p.2.2 }

/-- `DrKGCAgent.run`: append the user query, reset the local step
counter and best answer, run the loop up to `max_steps` iterations and
return the final response together with the end state. -/
def run (env : ExecEnv) (st : RunState) (user_query : String)
    (max_steps : Nat) : String × RunState :=
  let st1 := { st with messages := st.messages ++ [Msg.user user_query],
                       stepCount := 0, finalResponse := "" }
  let st2 := runLoop env max_steps st1
  (st2.finalResponse, st2)

/-! ### Concrete instances used by the closed checks -/

/-- Host facts of a demonstration deployment. -/
def demoCfg : AgentCfg :=
  { sysExecutable := "/opt/venv/bin/python", moduleDir := "/app/src" }

/-- A registered capability whose template names the interpreter token
`python`, a script path and one bound flag. -/
def demoConfig : ToolConfig :=
  { command_template := "python script.py --text {text}", cwd := "skills/demo_tool" }

/-- A loader holding the single capability `demo_tool` and no session. -/
def demoState : LoaderState :=
  { tools_schema := [], tool_configs := [("demo_tool", demoConfig)], sessionId := none }

/-- A loader with no capabilities at all. -/
def emptyState : LoaderState :=
  { tools_schema := [], tool_configs := [], sessionId := none }

/-- A backend that always asks for one more tool call. -/
def loopingBackend : List Msg → Option Reply := fun _ =>
  some { content := some "one more measurement",
         toolCalls := [{ id := "call_1", name := "demo_tool",
                         arguments := "\x7b\"text\": \"hi\"\x7d" }] }

/-- A run environment around `demoState`'s capability in which every
spawned process prints a success envelope and every argument payload
decodes to a single string argument. -/
def demoEnv : ExecEnv :=
  { cfg := demoCfg,
    spawn := fun _ => .ok "\x7b\"status\": \"success\"\x7d\n" "",
    timeAt := fun n => "20250101_00000" ++ toString n,
    backend := loopingBackend,
    parseJson := fun _ => .ok [("text", .vstr "hi")] }

/-- A starting run state: system prompt only, demo loader, fresh
counters. -/
def demoRun : RunState :=
  { messages := [Msg.system "prompt"], loader := demoState, tick := 0,
    finalResponse := "", stepCount := 0 }

/-- A run environment in which the argument payload `bad` fails to
decode while any other payload decodes to a string argument. -/
def demoEnvMixed : ExecEnv :=
  { cfg := demoCfg,
    spawn := fun _ => .ok "\x7b\"status\": \"success\"\x7d" "",
    timeAt := fun n => "20250101_10000" ++ toString n,
    backend := loopingBackend,
    parseJson := fun s =>
      if s = "bad" then .error "Expecting value: line 1 column 1 (char 0)"
      else .ok [("text", .vstr "hi")] }

/-- Rewriting the recorded working directory of one capability, leaving
everything else in place.  Used to show the recorded directory never
reaches process creation. -/
def setToolCwd (st : LoaderState) (name : String) (c : String) : LoaderState :=
  { st with
    tool_configs :=
      st.tool_configs.map fun p =>
        if p.1 = name then (p.1, { p.2 with cwd := c }) else p }

/-- The name of a directory entry that is a well-formed capability
directory whose descriptor read succeeds. -/
def okSkillName : FsEntry → Option String
  | .skillDir nm (.ok _) => some nm
  | _ => none

/-! ### Helper lemmas -/

/-- Unfolding `execute_tool` on a registered capability whose template
splits into at least two tokens: exactly one process is created, with
the interpreter of the running agent, the template's script token, and
the flag/value pairs resolved through the compiled binding; the session
identifier is `sidOf`; the result is the output case analysis applied
to the spawn outcome. -/
theorem execute_tool_known (cfg : AgentCfg) (spawn : SpawnReq → SpawnOutcome)
    (now : String) (st : LoaderState) (name : String)
    (args : List (String × PyVal)) (tc : ToolConfig) (t0 t1 : String)
    (rest : List String)
    (h1 : dictFind st.tool_configs name = some tc)
    (h2 : pySplit tc.command_template = t0 :: t1 :: rest) :
    execute_tool cfg spawn now st name args =
      (handleOutcome (spawn
        { cmd := cfg.sysExecutable :: t1 ::
            (args.map (fun p => (dictGet (buildMapping rest) p.1 ("--" ++ p.1),
              serializeArg p.2))).foldr (fun p acc => p.1 :: p.2 :: acc) [],
          envSession := sidOf st now, cwd := cfg.moduleDir }),
       { st with sessionId := some (sidOf st now) },
       [{ cmd := cfg.sysExecutable :: t1 ::
            (args.map (fun p => (dictGet (buildMapping rest) p.1 ("--" ++ p.1),
              serializeArg p.2))).foldr (fun p acc => p.1 :: p.2 :: acc) [],
          envSession := sidOf st now, cwd := cfg.moduleDir }]) := by
  unfold execute_tool
  rw [h1]
  dsimp only
  rw [h2]
  dsimp only
  rw [List.map_map]
  rfl

/-- Unfolding `execute_tool` on a name absent from the registry: a
structured error, no process, no state change. -/
theorem execute_tool_unknown (cfg : AgentCfg) (spawn : SpawnReq → SpawnOutcome)
    (now : String) (st : LoaderState) (name : String)
    (args : List (String × PyVal))
    (h : dictFind st.tool_configs name = none) :
    execute_tool cfg spawn now st name args =
      (.err ("工具 " ++ name ++ " 未找到") none, st, []) := by
  unfold execute_tool
  rw [h]

/-- Unfolding `execute_tool` on a registered capability whose template
splits into fewer than two tokens: a structured error, no process, no
state change. -/
theorem execute_tool_short (cfg : AgentCfg) (spawn : SpawnReq → SpawnOutcome)
    (now : String) (st : LoaderState) (name : String)
    (args : List (String × PyVal)) (tc : ToolConfig)
    (h1 : dictFind st.tool_configs name = some tc)
    (h2 : pySplit tc.command_template = [] ∨ ∃ t, pySplit tc.command_template = [t]) :
    execute_tool cfg spawn now st name args =
      (.err "无效的命令模板" none, st, []) := by
  unfold execute_tool
  rw [h1]
  dsimp only
  rcases h2 with h2 | ⟨t, h2⟩ <;> rw [h2]

/-- Looking a capability up after rewriting its recorded working
directory finds the same entry with only that directory changed. -/
theorem dictFind_map_cwd (m : List (String × ToolConfig)) (name c : String) :
    dictFind (m.map (fun p => if p.1 = name then (p.1, { p.2 with cwd := c }) else p)) name
      = (dictFind m name).map (fun tc => { tc with cwd := c }) := by
  induction m with
  | nil => rfl
  | cons p rest ih =>
    by_cases hp : p.1 = name <;>
      simp only [List.map_cons, dictFind, ih, hp, if_true, if_false] <;>
      cases dictFind rest name <;> simp [hp]

/-! ### Claim theorems -/

/-- C4: for every capability name not present in the registry and every
argument map, `execute_tool` returns a structured error result, does
not spawn any process, and leaves the loader state unchanged. -/
theorem c4_unknown_capability_no_spawn (cfg : AgentCfg)
    (spawn : SpawnReq → SpawnOutcome) (now : String) (st : LoaderState)
    (name : String) (args : List (String × PyVal))
    (h : dictFind st.tool_configs name = none) :
    execute_tool cfg spawn now st name args =
      (.err ("工具 " ++ name ++ " 未找到") none, st, []) :=
  execute_tool_unknown cfg spawn now st name args h

/-- Witness for C4 at a concrete unknown name over an empty registry. -/
theorem c4_witness :
    execute_tool demoCfg (fun _ => .ok "x" "") "t" emptyState "ghost" [] =
      (.err ("工具 " ++ "ghost" ++ " 未找到") none, emptyState, []) :=
  c4_unknown_capability_no_spawn demoCfg (fun _ => .ok "x" "") "t" emptyState
    "ghost" [] (by decide)

/-- C10: every process `execute_tool` creates runs in the directory
holding the loader module, and the per-capability working directory
recorded at load time never reaches process creation: rewriting it
changes neither the result, nor the spawn requests, nor the session
identifier. -/
theorem c10_child_cwd_is_module_dir (cfg : AgentCfg)
    (spawn : SpawnReq → SpawnOutcome) (now : String) (st : LoaderState)
    (name : String) (args : List (String × PyVal)) :
    (∀ req ∈ (execute_tool cfg spawn now st name args).2.2,
      req.cwd = cfg.moduleDir) ∧
    (∀ c : String,
      (execute_tool cfg spawn now (setToolCwd st name c) name args).1 =
        (execute_tool cfg spawn now st name args).1 ∧
      (execute_tool cfg spawn now (setToolCwd st name c) name args).2.2 =
        (execute_tool cfg spawn now st name args).2.2 ∧
      (execute_tool cfg spawn now (setToolCwd st name c) name args).2.1.sessionId =
        (execute_tool cfg spawn now st name args).2.1.sessionId) := by
  have hfind : ∀ c, dictFind (setToolCwd st name c).tool_configs name =
      (dictFind st.tool_configs name).map (fun tc => { tc with cwd := c }) :=
    fun c => dictFind_map_cwd st.tool_configs name c
  have hsid : ∀ c, (setToolCwd st name c).sessionId = st.sessionId := fun _ => rfl
  cases h1 : dictFind st.tool_configs name with
  | none =>
    have hbase := execute_tool_unknown cfg spawn now st name args h1
    constructor
    · intro req hreq
      rw [hbase] at hreq
      simp at hreq
    · intro c
      have h1c : dictFind (setToolCwd st name c).tool_configs name = none := by
        rw [hfind c, h1]; rfl
      have hmod := execute_tool_unknown cfg spawn now
        (setToolCwd st name c) name args h1c
      rw [hbase, hmod]
      exact ⟨rfl, rfl, rfl⟩
  | some tc =>
    cases h2 : pySplit tc.command_template with
    | nil =>
      have hbase := execute_tool_short cfg spawn now st name args tc h1 (Or.inl h2)
      constructor
      · intro req hreq
        rw [hbase] at hreq
        simp at hreq
      · intro c
        have h1c : dictFind (setToolCwd st name c).tool_configs name =
            some { tc with cwd := c } := by rw [hfind c, h1]; rfl
        have hmod := execute_tool_short cfg spawn now (setToolCwd st name c)
          name args { tc with cwd := c } h1c (Or.inl h2)
        rw [hbase, hmod]
        exact ⟨rfl, rfl, rfl⟩
    | cons t0 ts =>
      cases ts with
      | nil =>
        have hbase := execute_tool_short cfg spawn now st name args tc h1
          (Or.inr ⟨t0, h2⟩)
        constructor
        · intro req hreq
          rw [hbase] at hreq
          simp at hreq
        · intro c
          have h1c : dictFind (setToolCwd st name c).tool_configs name =
              some { tc with cwd := c } := by rw [hfind c, h1]; rfl
          have hmod := execute_tool_short cfg spawn now (setToolCwd st name c)
            name args { tc with cwd := c } h1c (Or.inr ⟨t0, h2⟩)
          rw [hbase, hmod]
          exact ⟨rfl, rfl, rfl⟩
      | cons t1 rest =>
        have hbase := execute_tool_known cfg spawn now st name args tc t0 t1
          rest h1 h2
        constructor
        · intro req hreq
          rw [hbase] at hreq
          simp only [List.mem_singleton] at hreq
          rw [hreq]
        · intro c
          have h1c : dictFind (setToolCwd st name c).tool_configs name =
              some { tc with cwd := c } := by rw [hfind c, h1]; rfl
          have hmod := execute_tool_known cfg spawn now (setToolCwd st name c)
            name args { tc with cwd := c } t0 t1 rest h1c h2
          rw [hbase, hmod]
          constructor
          · rfl
          · exact ⟨rfl, rfl⟩

/-- Witness for C10: the request logged by a concrete invocation runs
in the module directory. -/
theorem c10_witness :
    (execute_tool demoCfg (fun _ => .ok "hello" "") "t" demoState "demo_tool"
      []).2.2.all (fun req => req.cwd = demoCfg.moduleDir) = true := by
  have h := (c10_child_cwd_is_module_dir demoCfg (fun _ => .ok "hello" "") "t"
    demoState "demo_tool" []).1
  rw [List.all_eq_true]
  intro req hreq
  exact decide_eq_true (h req hreq)

/-- Counterexample to C1 as stated: for a known capability, standard
output `" \n"` is non-empty, yet the returned result is the structured
error carrying the stderr text rather than that output verbatim; and
for standard output `"hello\n"` the returned payload is the stripped
text `"hello"`, not the standard output verbatim. -/
theorem c1_counterexample :
    (execute_tool demoCfg (fun _ => .ok " \n" "boom") "20250101_000000"
      demoState "demo_tool" []).1 = .err "无输出" (some "boom")
    ∧ (" \n" : String) ≠ ""
    ∧ (execute_tool demoCfg (fun _ => .ok "hello\n" "") "20250101_000000"
      demoState "demo_tool" []).1 = .out "hello"
    ∧ ("hello" : String) ≠ "hello\n" := by
  refine ⟨?_, ?_, ?_, ?_⟩ <;> decide

/-- C1 (amended): for every invocation of a known capability with a
well-formed template, `execute_tool` performs exactly one spawn and its
result is a total case analysis of the outcome, branching on the
whitespace-stripped standard output: non-empty stripped output is
returned as the payload; empty stripped output with non-empty standard
error gives a structured error carrying the stderr text; empty stripped
output and empty stderr gives the no-output structured error; a
process-creation exception gives a structured error carrying the
exception text. -/
theorem c1_amended_output_case_analysis (cfg : AgentCfg)
    (spawn : SpawnReq → SpawnOutcome) (now : String) (st : LoaderState)
    (name : String) (args : List (String × PyVal)) (tc : ToolConfig)
    (t0 t1 : String) (rest : List String)
    (h1 : dictFind st.tool_configs name = some tc)
    (h2 : pySplit tc.command_template = t0 :: t1 :: rest) :
    ∃ req, (execute_tool cfg spawn now st name args).2.2 = [req] ∧
      (execute_tool cfg spawn now st name args).1 = handleOutcome (spawn req) ∧
      (∀ m, handleOutcome (.exn m) = .err ("执行异常: " ++ m) none) ∧
      (∀ so se, pyStrip so ≠ "" → handleOutcome (.ok so se) = .out (pyStrip so)) ∧
      (∀ so se, pyStrip so = "" → se ≠ "" →
        handleOutcome (.ok so se) = .err "无输出" (some se)) ∧
      (∀ so, pyStrip so = "" → handleOutcome (.ok so "") = .err "脚本输出为空" none) := by
  rw [execute_tool_known cfg spawn now st name args tc t0 t1 rest h1 h2]
  refine ⟨_, rfl, rfl, fun m => rfl, ?_, ?_, ?_⟩
  · intro so se h
    simp [handleOutcome, h]
  · intro so se h hse
    simp [handleOutcome, h, hse]
  · intro so h
    simp [handleOutcome, h]

/-- Witness for the amended C1 at a concrete capability and spawn. -/
theorem c1_witness :
    ∃ req, (execute_tool demoCfg (fun _ => .ok "report ready" "") "t"
      demoState "demo_tool" []).2.2 = [req] ∧
      (execute_tool demoCfg (fun _ => .ok "report ready" "") "t"
        demoState "demo_tool" []).1 =
        handleOutcome ((fun _ => SpawnOutcome.ok "report ready" "") req) := by
  obtain ⟨req, ha, hb, -⟩ := c1_amended_output_case_analysis demoCfg
    (fun _ => .ok "report ready" "") "t" demoState "demo_tool" [] demoConfig
    "python" "script.py" ["--text", "{text}"] (by decide) (by decide)
  exact ⟨req, ha, hb⟩

/-- Counterexample to C9 as stated: the template's token 0 is `python`,
but the argument vector of the one spawned process begins with the
running interpreter `/opt/venv/bin/python`, not with token 0. -/
theorem c9_counterexample :
    (pySplit demoConfig.command_template).head? = some "python"
    ∧ (execute_tool demoCfg (fun _ => .ok "ok" "") "t" demoState "demo_tool"
        []).2.2.map (fun req => req.cmd.head?) = [some "/opt/venv/bin/python"]
    ∧ ("/opt/venv/bin/python" : String) ≠ "python" := by
  refine ⟨?_, ?_, ?_⟩ <;> decide

/-- C9 (amended): for every invocation of a known capability whose
template has at least two whitespace-separated tokens, the argument
vector handed to process creation begins with the running agent's own
interpreter executable, followed by the template's token 1 (the script
path), and then the flag/value pairs; the template's token 0 is not
used. -/
theorem c9_amended_argv_layout (cfg : AgentCfg)
    (spawn : SpawnReq → SpawnOutcome) (now : String) (st : LoaderState)
    (name : String) (args : List (String × PyVal)) (tc : ToolConfig)
    (t0 t1 : String) (rest : List String)
    (h1 : dictFind st.tool_configs name = some tc)
    (h2 : pySplit tc.command_template = t0 :: t1 :: rest) :
    ∃ req, (execute_tool cfg spawn now st name args).2.2 = [req] ∧
      req.cmd = cfg.sysExecutable :: t1 ::
        (args.map (fun p => (dictGet (buildMapping rest) p.1 ("--" ++ p.1),
          serializeArg p.2))).foldr (fun p acc => p.1 :: p.2 :: acc) [] := by
  rw [execute_tool_known cfg spawn now st name args tc t0 t1 rest h1 h2]
  exact ⟨_, rfl, rfl⟩

/-- Witness for the amended C9: the concrete argument vector of a demo
invocation. -/
theorem c9_witness :
    ∃ req, (execute_tool demoCfg (fun _ => .ok "ok" "") "t" demoState
      "demo_tool" [("text", .vstr "hi")]).2.2 = [req] ∧
      req.cmd = "/opt/venv/bin/python" :: "script.py" :: ["--text", "hi"] := by
  obtain ⟨req, ha, hb⟩ := c9_amended_argv_layout demoCfg (fun _ => .ok "ok" "")
    "t" demoState "demo_tool" [("text", .vstr "hi")] demoConfig "python"
    "script.py" ["--text", "{text}"] (by decide) (by decide)
  refine ⟨req, ha, ?_⟩
  rw [hb]
  rfl

/-- Counterexample to C5 as stated: in the template
`INTERP SCRIPT --a --b '{x}'` the token immediately preceding the
placeholder for `x` is the flag token `--b`, yet the compiled binding
does not map `x` at all (the scan consumed `--b` as the token following
`--a`), so at call time `x` falls back to the default flag rather than
to `--b`. -/
theorem c5_counterexample :
    pySplit "INTERP SCRIPT --a --b \x27{x}\x27" =
      ["INTERP", "SCRIPT", "--a", "--b", "\x27{x}\x27"]
    ∧ strStartsWith "--b" "--" = true
    ∧ placeholderName (stripQuotes "\x27{x}\x27") = some "x"
    ∧ dictFind (buildMapping ((pySplit "INTERP SCRIPT --a --b \x27{x}\x27").drop 2)) "x"
        = none
    ∧ dictGet (buildMapping ((pySplit "INTERP SCRIPT --a --b \x27{x}\x27").drop 2)) "x"
        ("--" ++ "x") = "--x" := by
  refine ⟨?_, ?_, ?_, ?_, ?_⟩ <;> decide

/-- C5 (amended): the binding is compiled by a left-to-right scan of
the template tokens past the script path in which each flag token
(starting with a double dash) consumes the following token, and a
placeholder `{name}` is bound to a flag exactly when it is the token
that flag consumed; on the spec's example template the binding maps
`x` to `--a` and `y` to `--b`; a supplied parameter with no binding
falls back to the default flag built from its own name; and at call
time the flag attached to each supplied argument is determined by the
template and that argument's name alone, independent of the other
arguments and of their order. -/
theorem c5_amended_binding :
    (∀ f p rest2, strStartsWith f "--" = true →
      ∀ nm, placeholderName (stripQuotes p) = some nm →
        buildMapping (f :: p :: rest2) = (nm, f) :: buildMapping rest2)
    ∧ (∀ f p rest2, strStartsWith f "--" = true →
      placeholderName (stripQuotes p) = none →
        buildMapping (f :: p :: rest2) = buildMapping rest2)
    ∧ (∀ f rest2, strStartsWith f "--" = false →
        buildMapping (f :: rest2) = buildMapping rest2)
    ∧ buildMapping ((pySplit "INTERP SCRIPT --a \x27{x}\x27 --b \x27{y}\x27").drop 2)
        = [("x", "--a"), ("y", "--b")]
    ∧ (∀ (m : List (String × String)) (k : String), dictFind m k = none →
        dictGet m k ("--" ++ k) = "--" ++ k)
    ∧ (∀ (cfg : AgentCfg) (spawn : SpawnReq → SpawnOutcome) (now : String)
        (st : LoaderState) (name : String) (args : List (String × PyVal))
        (tc : ToolConfig) (t0 t1 : String) (rest : List String),
        dictFind st.tool_configs name = some tc →
        pySplit tc.command_template = t0 :: t1 :: rest →
        ∃ req, (execute_tool cfg spawn now st name args).2.2 = [req] ∧
          req.cmd = cfg.sysExecutable :: t1 ::
            (args.map (fun p => (dictGet (buildMapping rest) p.1 ("--" ++ p.1),
              serializeArg p.2))).foldr (fun p acc => p.1 :: p.2 :: acc) []) := by
  refine ⟨?_, ?_, ?_, by decide, ?_, ?_⟩
  · intro f p rest2 hf nm hp
    simp [buildMapping, hf, hp]
  · intro f p rest2 hf hp
    simp [buildMapping, hf, hp]
  · intro f rest2 hf
    cases rest2 with
    | nil => simp [buildMapping, hf]
    | cons p rest3 => simp [buildMapping, hf]
  · intro m k h
    simp [dictGet, h]
  · intro cfg spawn now st name args tc t0 t1 rest h1 h2
    rw [execute_tool_known cfg spawn now st name args tc t0 t1 rest h1 h2]
    exact ⟨_, rfl, rfl⟩

/-- Witness for the amended C5: concrete bindings and a concrete
invocation whose supplied parameter has no placeholder and receives the
default flag. -/
theorem c5_witness :
    buildMapping ["--a", "\x27{x}\x27", "--b", "\x27{y}\x27"] =
      [("x", "--a"), ("y", "--b")]
    ∧ ∃ req, (execute_tool demoCfg (fun _ => .ok "ok" "") "t" demoState
        "demo_tool" [("other", .vstr "v")]).2.2 = [req] ∧
        req.cmd = "/opt/venv/bin/python" :: "script.py" :: ["--other", "v"] := by
  have h := c5_amended_binding
  constructor
  · have h4 := h.2.2.2.1
    have : (pySplit "INTERP SCRIPT --a \x27{x}\x27 --b \x27{y}\x27").drop 2 =
        ["--a", "\x27{x}\x27", "--b", "\x27{y}\x27"] := by decide
    rw [this] at h4
    exact h4
  · obtain ⟨req, ha, hb⟩ := h.2.2.2.2.2 demoCfg (fun _ => .ok "ok" "") "t"
      demoState "demo_tool" [("other", .vstr "v")] demoConfig "python"
      "script.py" ["--text", "{text}"] (by decide) (by decide)
    refine ⟨req, ha, ?_⟩
    rw [hb]
    rfl

/-- C6: the session identifier, once established (truthy), is never
changed by any `execute_tool` call and is the identifier injected into
every child environment; when none is established, an invocation that
reaches process creation synthesizes the timestamp-derived identifier,
injects it, and retains it in the loader state, so that every later
invocation in the run injects that same identifier. -/
theorem c6_session_id_lifecycle (cfg : AgentCfg)
    (spawn : SpawnReq → SpawnOutcome) (now : String) (st : LoaderState)
    (name : String) (args : List (String × PyVal)) :
    (∀ s, st.sessionId = some s → s ≠ "" →
      (execute_tool cfg spawn now st name args).2.1.sessionId = some s ∧
      ∀ req ∈ (execute_tool cfg spawn now st name args).2.2,
        req.envSession = s) ∧
    ((st.sessionId = none ∨ st.sessionId = some "") →
      (∀ req ∈ (execute_tool cfg spawn now st name args).2.2,
        req.envSession = now) ∧
      ((execute_tool cfg spawn now st name args).2.2 ≠ [] →
        (execute_tool cfg spawn now st name args).2.1.sessionId = some now)) := by
  have hshape :
      ((execute_tool cfg spawn now st name args).2.1 = st ∧
       (execute_tool cfg spawn now st name args).2.2 = []) ∨
      ((execute_tool cfg spawn now st name args).2.1.sessionId =
          some (sidOf st now) ∧
       (execute_tool cfg spawn now st name args).2.2.all
          (fun req => req.envSession = sidOf st now) = true) := by
    cases h1 : dictFind st.tool_configs name with
    | none =>
      left
      rw [execute_tool_unknown cfg spawn now st name args h1]
      exact ⟨rfl, rfl⟩
    | some tc =>
      cases h2 : pySplit tc.command_template with
      | nil =>
        left
        rw [execute_tool_short cfg spawn now st name args tc h1 (Or.inl h2)]
        exact ⟨rfl, rfl⟩
      | cons t0 ts =>
        cases ts with
        | nil =>
          left
          rw [execute_tool_short cfg spawn now st name args tc h1
            (Or.inr ⟨t0, h2⟩)]
          exact ⟨rfl, rfl⟩
        | cons t1 rest =>
          right
          rw [execute_tool_known cfg spawn now st name args tc t0 t1 rest h1 h2]
          exact ⟨rfl, by simp⟩
  constructor
  · intro s hs hne
    have hsid : sidOf st now = s := by
      simp [sidOf, hs, hne]
    rcases hshape with ⟨hst, hlog⟩ | ⟨hst, hlog⟩
    · rw [hst, hlog]
      exact ⟨hs, by simp⟩
    · rw [hst, hsid]
      refine ⟨rfl, ?_⟩
      intro req hreq
      rw [List.all_eq_true] at hlog
      have := hlog req hreq
      rw [hsid] at this
      exact of_decide_eq_true this
  · intro hfalsy
    have hsid : sidOf st now = now := by
      rcases hfalsy with h | h <;> simp [sidOf, h]
    rcases hshape with ⟨hst, hlog⟩ | ⟨hst, hlog⟩
    · rw [hlog]
      exact ⟨by simp, fun hne => absurd rfl hne⟩
    · constructor
      · intro req hreq
        rw [List.all_eq_true] at hlog
        have := hlog req hreq
        rw [hsid] at this
        exact of_decide_eq_true this
      · intro _
        rw [hst, hsid]

/-- Witness for C6: a first invocation with no session established
injects and retains the timestamp identifier. -/
theorem c6_witness :
    (execute_tool demoCfg (fun _ => .ok "ok" "") "20250101_000000" demoState
      "demo_tool" []).2.1.sessionId = some "20250101_000000" := by
  have h := ((c6_session_id_lifecycle demoCfg (fun _ => .ok "ok" "")
    "20250101_000000" demoState "demo_tool" []).2 (Or.inl (by decide))).2
  exact h (by decide)

/-- Folding the registry scan appends exactly one schema name per
successfully read descriptor directory, in listing order. -/
theorem loadFold_names (skills_dir : String) (entries : List FsEntry) :
    ∀ st : LoaderState,
      ((entries.foldl (loadStep skills_dir) st).tools_schema.map
        (fun td => td.name)) =
      st.tools_schema.map (fun td => td.name) ++ entries.filterMap okSkillName := by
  induction entries with
  | nil => intro st; simp
  | cons e rest ih =>
    intro st
    cases e with
    | skillDir nm d =>
      cases d with
      | ok content =>
        simp only [List.foldl_cons, loadStep, ih, registerSkill,
          List.filterMap_cons, okSkillName]
        simp
      | error emsg =>
        simp only [List.foldl_cons, loadStep, ih, List.filterMap_cons,
          okSkillName]
    | plainEntry nm =>
      simp only [List.foldl_cons, loadStep, ih, List.filterMap_cons,
        okSkillName]

/-- C7: loading the registry yields exactly one capability descriptor,
carrying the folder name, per directory entry that is a well-formed
capability directory with a readable descriptor, in listing order; and
an entry whose descriptor processing raises is skipped without
affecting what is loaded from the sibling entries. -/
theorem c7_registry_isolation :
    (∀ (skills_dir : String) (entries : List FsEntry),
      (load_all skills_dir true entries initLoader).tools_schema.map
        (fun td => td.name) = entries.filterMap okSkillName) ∧
    (∀ (skills_dir : String) (xs ys : List FsEntry) (nm emsg : String)
      (st : LoaderState),
      load_all skills_dir true (xs ++ FsEntry.skillDir nm (.error emsg) :: ys) st =
        load_all skills_dir true (xs ++ ys) st) := by
  constructor
  · intro skills_dir entries
    have h := loadFold_names skills_dir entries initLoader
    simpa [load_all, initLoader] using h
  · intro skills_dir xs ys nm emsg st
    simp only [load_all, if_true, List.foldl_append, List.foldl_cons]
    rfl

/-- Counterexample to C8 as stated: on a descriptor with no Description
section the parse yields the placeholder text `No description`, not an
empty description (the Command default is indeed empty). -/
theorem c8_counterexample :
    (parse_skill "no sections here").description = "No description"
    ∧ ("No description" : String) ≠ ""
    ∧ (parse_skill "no sections here").command_template = "" := by
  refine ⟨?_, ?_, ?_⟩ <;> decide

/-- C8 (amended): for every descriptor file, a missing Description
section yields the placeholder description `No description` and a
missing Command section yields an empty command template; the parse
itself is total and never fails. -/
theorem c8_amended_defaults (content : String) :
    (searchDescAux content.data = none →
      (parse_skill content).description = "No description") ∧
    (searchCmdAux content.data = none →
      (parse_skill content).command_template = "") := by
  constructor
  · intro h
    simp [parse_skill, h]
  · intro h
    simp [parse_skill, h]

/-- Witness for the amended C8 on a concrete sectionless descriptor. -/
theorem c8_witness :
    (parse_skill "hello").description = "No description" ∧
    (parse_skill "hello").command_template = "" :=
  ⟨(c8_amended_defaults "hello").1 (by decide),
   (c8_amended_defaults "hello").2 (by decide)⟩

/-- Bumping the step counter leaves the rest of the run state alone. -/
theorem bumpStep_messages (st : RunState) : (bumpStep st).messages = st.messages :=
  rfl

/-- Recording content never changes the step counter. -/
theorem noteContent_stepCount (st : RunState) (c : Option String) :
    (noteContent st c).stepCount = st.stepCount := by
  cases c with
  | none => rfl
  | some s =>
    by_cases h : s = "" <;> simp [noteContent, h]

/-- Recording content never changes the transcript. -/
theorem noteContent_messages (st : RunState) (c : Option String) :
    (noteContent st c).messages = st.messages := by
  cases c with
  | none => rfl
  | some s =>
    by_cases h : s = "" <;> simp [noteContent, h]

/-- Recording content never changes the loader state. -/
theorem noteContent_loader (st : RunState) (c : Option String) :
    (noteContent st c).loader = st.loader := by
  cases c with
  | none => rfl
  | some s =>
    by_cases h : s = "" <;> simp [noteContent, h]

/-- Recording content never changes the timestamp index. -/
theorem noteContent_tick (st : RunState) (c : Option String) :
    (noteContent st c).tick = st.tick := by
  cases c with
  | none => rfl
  | some s =>
    by_cases h : s = "" <;> simp [noteContent, h]

/-- One unfolding of the loop body. -/
theorem runLoop_succ (env : ExecEnv) (fuel : Nat) (st : RunState) :
    runLoop env (fuel + 1) st =
      match env.backend (bumpStep st).messages with
      | none => bumpStep st
      | some r =>
        let st2 := appendMsgs (noteContent (bumpStep st) r.content)
          [Msg.assistant r.content r.toolCalls]
        if r.toolCalls.isEmpty then st2
        else
          let p := processCalls env st2.loader st2.tick r.toolCalls
          runLoop env fuel { appendMsgs st2 p.1 with loader := p.2.1, tick := p.2.2 } :=
  rfl

/-- Against a backend that always requests at least one tool call, the
loop consumes its whole step budget, adding exactly the budget to the
step counter. -/
theorem runLoop_steps (env : ExecEnv)
    (h : ∀ ms, ∃ r, env.backend ms = some r ∧ r.toolCalls ≠ []) :
    ∀ (fuel : Nat) (st : RunState),
      (runLoop env fuel st).stepCount = st.stepCount + fuel := by
  intro fuel
  induction fuel with
  | zero => intro st; simp [runLoop]
  | succ n ih =>
    intro st
    obtain ⟨r, hr, htc⟩ := h (bumpStep st).messages
    have hne : r.toolCalls.isEmpty = false := by
      cases hc : r.toolCalls with
      | nil => exact absurd hc htc
      | cons a b => rfl
    rw [runLoop_succ, hr]
    simp only [hne, Bool.false_eq_true, if_false, ih, appendMsgs,
      noteContent_stepCount, bumpStep]
    omega

/-- C2: against a backend whose every reply carries at least one
tool-call request, a run performs exactly the configured maximum number
of thinking iterations and then returns normally, its returned text
being the best content accumulated by the loop. -/
theorem c2_step_limit (env : ExecEnv) (st : RunState) (user_query : String)
    (max_steps : Nat)
    (h : ∀ ms, ∃ r, env.backend ms = some r ∧ r.toolCalls ≠ []) :
    (run env st user_query max_steps).2.stepCount = max_steps ∧
    (run env st user_query max_steps).1 =
      (run env st user_query max_steps).2.finalResponse := by
  refine ⟨?_, rfl⟩
  unfold run
  dsimp only
  rw [runLoop_steps env h max_steps]
  simp

/-- Witness for C2: a concrete looping backend exhausts the default
step budget of twenty-five. -/
theorem c2_witness :
    (run demoEnv demoRun "find resistance genes" 25).2.stepCount = 25 := by
  have h : ∀ ms : List Msg, ∃ r, demoEnv.backend ms = some r ∧ r.toolCalls ≠ [] := by
    intro ms
    exact ⟨_, rfl, by decide⟩
  exact (c2_step_limit demoEnv demoRun "find resistance genes" 25 h).1

/-- The tool-result messages of a batch carry the correlation ids of
the originating requests, in request order. -/
theorem processCalls_ids (env : ExecEnv) :
    ∀ (tcs : List ToolCall) (st : LoaderState) (tick : Nat),
      (processCalls env st tick tcs).1.map msgCallId =
        tcs.map (fun tc => some tc.id) := by
  intro tcs
  induction tcs with
  | nil => intro st tick; rfl
  | cons tc rest ih =>
    intro st tick
    cases hp : env.parseJson tc.arguments with
    | ok args => simp [processCalls, hp, ih, msgCallId]
    | error emsg => simp [processCalls, hp, ih, msgCallId]

/-- C3: for every batch of tool calls issued in one step, each
argument payload is decoded independently — a decode failure produces
the structured error message for that call alone and the remaining
calls are processed exactly as they would be without it — and the
batch produces one result message per request, carrying the request
ids in issue order, appended to the transcript right after the
assistant message of that step. -/
theorem c3_batch_isolation_order (env : ExecEnv) (st : LoaderState)
    (tick : Nat) (tcs : List ToolCall) (hne : tcs ≠ []) :
    ((processCalls env st tick tcs).1.length = tcs.length) ∧
    ((processCalls env st tick tcs).1.map msgCallId =
      tcs.map (fun tc => some tc.id)) ∧
    (∀ tc rest emsg, env.parseJson tc.arguments = .error emsg →
      processCalls env st tick (tc :: rest) =
        (Msg.tool tc.id tc.name (.err emsg none) ::
          (processCalls env st tick rest).1,
         (processCalls env st tick rest).2.1,
         (processCalls env st tick rest).2.2)) ∧
    (∀ (rst : RunState) (r : Reply), env.backend rst.messages = some r →
      r.toolCalls = tcs →
      (runLoop env 1 rst).messages =
        (rst.messages ++ [Msg.assistant r.content r.toolCalls]) ++
          (processCalls env rst.loader rst.tick r.toolCalls).1) := by
  refine ⟨?_, processCalls_ids env tcs st tick, ?_, ?_⟩
  · have h := processCalls_ids env tcs st tick
    have := congrArg List.length h
    simpa using this
  · intro tc rest emsg hp
    simp [processCalls, hp]
  · intro rst r hr htcs
    have hisEmpty : r.toolCalls.isEmpty = false := by
      rw [htcs]
      cases hc : tcs with
      | nil => exact absurd hc hne
      | cons a b => rfl
    rw [runLoop_succ, bumpStep_messages, hr]
    simp only [hisEmpty, Bool.false_eq_true, if_false, runLoop]
    simp only [appendMsgs, noteContent_messages, noteContent_loader,
      noteContent_tick, bumpStep_messages, bumpStep]

/-- Witness for C3 on a concrete two-call batch whose first payload
fails to decode: both calls still produce results, in order. -/
theorem c3_witness :
    (processCalls demoEnvMixed demoState 0
      [{ id := "call_a", name := "demo_tool", arguments := "bad" },
       { id := "call_b", name := "demo_tool", arguments := "good" }]).1.map
        msgCallId = [some "call_a", some "call_b"] := by
  have h := c3_batch_isolation_order demoEnvMixed demoState 0
    [{ id := "call_a", name := "demo_tool", arguments := "bad" },
     { id := "call_b", name := "demo_tool", arguments := "good" }] (by decide)
  rw [h.2.1]
  rfl
